import Mathlib

/-!
# PlacementPro matching/scheduling core: a shallow embedding

This file embeds the core operations of `src/app.py` (a Flask + PyMongo
application) as executable Lean definitions and proves properties of them.

Conventions of the embedding:
* MongoDB collections are lists of structure values, in document order;
  `find_one`/`update_one`/`delete_one` act on the first matching element.
* Python `float` scores (CGPA) are modelled as rationals `ℚ`; integer counts
  as `ℤ`/`ℕ`.  `datetime` values are modelled as an abstract `ℕ` timestamp
  (only equality and ordering of parsed values matter to the code).
* Document fields that some writers of the collection omit are modelled as
  `Option` fields (`none` = field absent from the document).
* Python truthiness defaults such as `s.get('cgpa') or 0` become `Option.getD 0`.
-/

namespace PlacementPro

/-- A student document.  Registration inserts `{'user_id': ..., 'profile_complete': False}`
with no `branch`/`cgpa`/`backlogs` fields; the profile route later `$set`s them.
Hence the three eligibility-relevant fields are modelled as optional.
`sid` stands for the stringified document `_id` (`sid(s)` in the source). -/
structure Student where
  sid : String
  branch : Option String
  cgpa : Option ℚ
  backlogs : Option ℤ
deriving DecidableEq

/-- A drive (opportunity) document, restricted to the eligibility-relevant
fields, which the create route always writes. -/
structure Drive where
  did : String
  allowed_branches : List String
  min_cgpa : ℚ
  max_backlogs : ℤ
deriving DecidableEq

/-- The eligibility check of `student_drives` (src/app.py:693-695):
`s.get('branch') in allowed and float(s.get('cgpa') or 0) >= float(d.get('min_cgpa') or 0)
and int(s.get('backlogs') or 0) <= int(d.get('max_backlogs') or 0)`.
A missing `branch` is Python `None`, which is never `in` a list of branch names. -/
def is_eligible (s : Student) (d : Drive) : Bool :=
  (match s.branch with
   | some b => decide (b ∈ d.allowed_branches)
   | none => false)
  && decide (d.min_cgpa ≤ s.cgpa.getD 0)
  && decide (s.backlogs.getD 0 ≤ d.max_backlogs)

/-- The MongoDB filter of `admin_criteria` (src/app.py:325-329):
`{'branch': {'$in': allowed}, 'cgpa': {'$gte': min_cgpa}, 'backlogs': {'$lte': max_bl}}`.
Per MongoDB semantics, the range operators `$gte`/`$lte` with a numeric operand
do not match a document in which the field is absent, and `$in` over a list of
strings does not match a document without the field. -/
def criteriaMatch (s : Student) (d : Drive) : Bool :=
  (match s.branch with
   | some b => decide (b ∈ d.allowed_branches)
   | none => false)
  && (match s.cgpa with
      | some c => decide (d.min_cgpa ≤ c)
      | none => false)
  && (match s.backlogs with
      | some k => decide (k ≤ d.max_backlogs)
      | none => false)

/-- The eligible-student listing of `admin_criteria`: the students matched by
the MongoDB filter, in collection order. -/
def matched_students (students : List Student) (d : Drive) : List Student :=
  students.filter (fun s => criteriaMatch s d)

/-! ## Mentorship slot booking (`book_mentorship_slot`, src/app.py:844-857) -/

/-- A mentorship slot document as inserted by `alumni_mentorship`:
`{'alumni_id': ..., 'available_time': t, 'meeting_link': ..., 'booked_by': None}`.
`booked_by = none` means the slot is unclaimed. -/
structure MentorSlot where
  msid : Nat
  alumni_id : String
  available_time : Nat
  meeting_link : String
  booked_by : Option String
deriving DecidableEq

/-- The single conditional update of `book_mentorship_slot`:
`db.mentorship_slots.update_one({'_id': oid(slot_id), 'booked_by': None},
{'$set': {'booked_by': sid(s)}})`.  `update_one` modifies the first document
matching the *whole* filter; the returned boolean is `result.modified_count`
being positive (setting `booked_by` from `None` to a string id always counts
as a modification). -/
def book_mentorship_slot : List MentorSlot → Nat → String → List MentorSlot × Bool
  | [], _, _ => ([], false)
  | ms :: rest, slotId, student =>
    if ms.msid = slotId ∧ ms.booked_by = none then
      ({ ms with booked_by := some student } :: rest, true)
    else
      ((ms :: (book_mentorship_slot rest slotId student).1),
        (book_mentorship_slot rest slotId student).2)

/-! ## Applications (`student_apply`, src/app.py:704-720) -/

/-- An application document:
`{'student_id': ..., 'drive_id': ..., 'status': 'applied', 'applied_at': now}`. -/
structure Application where
  student_id : String
  drive_id : String
  status : String
  applied_at : Nat
deriving DecidableEq

/-- `db.applications.find_one({'student_id': sid(s), 'drive_id': drive_id})`
viewed as a boolean: does an application for the pair exist? -/
def hasApplication (apps : List Application) (studentId driveId : String) : Bool :=
  apps.any (fun a => a.student_id == studentId && a.drive_id == driveId)

/-- All applications of the (student, drive) pair, in collection order. -/
def pairApplications (apps : List Application) (studentId driveId : String) : List Application :=
  apps.filter (fun a => a.student_id == studentId && a.drive_id == driveId)

/-- The body of `student_apply`: if an application for the pair exists, the
request only flashes a message (`false` = nothing inserted); otherwise a fresh
document with status `applied` and the current time is inserted. -/
def student_apply (apps : List Application) (studentId driveId : String) (now : Nat) :
    List Application × Bool :=
  if hasApplication apps studentId driveId then (apps, false)
  else (apps ++ [Application.mk studentId driveId "applied" now], true)

/-- A sequence of apply requests for one pair, with the request times given
in order. -/
def applySeq (apps : List Application) (studentId driveId : String) : List Nat → List Application
  | [] => apps
  | t :: ts => applySeq (student_apply apps studentId driveId t).1 studentId driveId ts

/-! ## Apply route and eligibility (`student_apply`, src/app.py:704-720) -/

/-- The full apply route seen from its inputs: the logged-in student's
document and the `drive_id` URL parameter.  The route consults nothing about
the student beyond `sid(s)` — in particular it never fetches the drive nor
evaluates any eligibility condition. -/
def student_apply_route (apps : List Application) (s : Student) (driveId : String) (now : Nat) :
    List Application × Bool :=
  student_apply apps s.sid driveId now

/-! ## Interview scheduling (`admin_scheduler`, src/app.py:362-391) -/

/-- An interview slot document.  `ivid` is the document `_id`. -/
structure Interview where
  ivid : Nat
  drive_id : String
  student_id : String
  time_slot : Nat
  venue : String
  notes : String
deriving DecidableEq

/-- The collections touched by the scheduler, plus a counter supplying the
`_id` of a document freshly inserted by an upsert. -/
structure SchedulerDB where
  interviews : List Interview
  applications : List Application
  next_id : Nat
deriving DecidableEq

/-- The overlap check of `admin_scheduler` (src/app.py:375):
`db.interviews.find_one({'student_id': student_id, 'time_slot': time_slot})` —
any interview of this student at this exact time, for *any* drive. -/
def hasConflict (ivs : List Interview) (studentId : String) (t : Nat) : Bool :=
  ivs.any (fun iv => iv.student_id == studentId && iv.time_slot == t)

/-- The upsert of src/app.py:378-383: `update_one` on the filter
`{'drive_id': drive_id, 'student_id': student_id}` with
`$set {time_slot, venue, notes, drive_id, student_id}` and `upsert=True`:
the first matching document is updated in place, and if none matches a fresh
document is inserted.  The boolean reports whether an insert happened. -/
def upsertInterview : List Interview → Nat → String → String → Nat → String → String →
    List Interview × Bool
  | [], newId, driveId, studentId, t, venue, notes =>
      ([Interview.mk newId driveId studentId t venue notes], true)
  | iv :: rest, newId, driveId, studentId, t, venue, notes =>
      if iv.drive_id = driveId ∧ iv.student_id = studentId then
        ({ iv with time_slot := t, venue := venue, notes := notes } :: rest, false)
      else
        ((iv :: (upsertInterview rest newId driveId studentId t venue notes).1),
          (upsertInterview rest newId driveId studentId t venue notes).2)

/-- The follow-on `update_one` of src/app.py:384-387: the first application of
the pair gets status `interview_scheduled`; with no match nothing happens. -/
def setInterviewScheduled : List Application → String → String → List Application
  | [], _, _ => []
  | a :: rest, studentId, driveId =>
      if a.student_id = studentId ∧ a.drive_id = driveId then
        { a with status := "interview_scheduled" } :: rest
      else
        a :: setInterviewScheduled rest studentId driveId

/-- The `schedule` action of `admin_scheduler` for a successfully parsed time:
reject when the student already has any interview at that exact time, else
upsert the slot keyed by (drive, student) and mark the application.  The
boolean is `true` when the interview was scheduled, `false` on the conflict
flash. -/
def admin_schedule (db : SchedulerDB) (driveId studentId : String) (t : Nat)
    (venue notes : String) : SchedulerDB × Bool :=
  if hasConflict db.interviews studentId t then (db, false)
  else
    (SchedulerDB.mk
      (upsertInterview db.interviews db.next_id driveId studentId t venue notes).1
      (setInterviewScheduled db.applications studentId driveId)
      (if (upsertInterview db.interviews db.next_id driveId studentId t venue notes).2 then
        db.next_id + 1 else db.next_id),
      true)

/-- The `delete` action of `admin_scheduler` (src/app.py:389-391):
`db.interviews.delete_one({'_id': oid(interview_id)})` — remove the first
(hence, for unique ids, the only) interview with that id. -/
def admin_delete_interview_scan : List Interview → Nat → List Interview
  | [], _ => []
  | iv :: rest, ivId =>
      if iv.ivid = ivId then rest else iv :: admin_delete_interview_scan rest ivId

def admin_delete_interview (db : SchedulerDB) (ivId : Nat) : SchedulerDB :=
  SchedulerDB.mk (admin_delete_interview_scan db.interviews ivId) db.applications db.next_id

/-- The interview slots keyed by one (drive, student) pair, in collection
order. -/
def pairSlots (ivs : List Interview) (driveId studentId : String) : List Interview :=
  ivs.filter (fun iv => iv.drive_id == driveId && iv.student_id == studentId)

/-! ## Python string primitives

Core `String` operations do not reduce well for fully concrete evaluation, so
the string-processing components model Python strings as their character
sequences, with structurally recursive versions of the `str` methods the
source uses (`strip`, `lower` — ASCII case folding, which covers the
repository's data —, `split`, substring `in`). -/

/-- A Python string, as its character sequence. -/
abbrev PyStr := List Char

/-- Python `str.lower()`. -/
def pyLower (s : PyStr) : PyStr := s.map Char.toLower

/-- Python `str.strip()`: drop leading and trailing whitespace. -/
def pyStrip (s : PyStr) : PyStr :=
  ((s.dropWhile Char.isWhitespace).reverse.dropWhile Char.isWhitespace).reverse

/-- Splitting at every separator character, keeping empty pieces — the
behaviour of Python `str.split(sep)` for a one-character separator. -/
def splitByPred (p : Char → Bool) : PyStr → List PyStr
  | [] => [[]]
  | c :: rest =>
    if p c then [] :: splitByPred p rest
    else
      match splitByPred p rest with
      | t :: ts => (c :: t) :: ts
      | [] => [[c]]

/-- Python `str.split(',')`. -/
def pySplitComma (s : PyStr) : List PyStr := splitByPred (fun c => c == ',') s

/-- Python `str.split()` with no argument: split on whitespace and drop the
empty pieces. -/
def pySplitWs (s : PyStr) : List PyStr :=
  (splitByPred Char.isWhitespace s).filter (fun w => !w.isEmpty)

/-- Does `needle` occur at the start of `hay`? -/
def strLead : PyStr → PyStr → Bool
  | [], _ => true
  | _ :: _, [] => false
  | a :: as, b :: bs => a == b && strLead as bs

/-- Python substring containment `needle in hay`. -/
def strHas (hay needle : PyStr) : Bool :=
  match hay with
  | [] => needle.isEmpty
  | c :: rest => strLead needle (c :: rest) || strHas rest needle

/-! ## Skill-gap analysis (`skill_gap`, src/app.py:860-889) -/

/-- The result dict built by `skill_gap` (restricted to the computed fields). -/
structure SkillGapResult where
  required : List PyStr
  matched : List PyStr
  missing : List PyStr
  pct : Nat
deriving DecidableEq

/-- `[sk.strip().lower() for sk in user_skills_raw.split(',') if sk.strip()]`. -/
def parseUserSkills (raw : PyStr) : List PyStr :=
  (pySplitComma raw).filterMap
    (fun sk => if (pyStrip sk).isEmpty then none else some (pyLower (pyStrip sk)))

/-- The analysis of src/app.py:879-886:
`required = [sk.strip().lower() for sk in role_doc.get('required_skills', [])]`,
`matched = [sk for sk in required if sk in user_sk]`,
`missing = [sk for sk in required if sk not in user_sk]`,
`pct = int(len(matched) / len(required) * 100) if required else 0`.
Python `int()` on a nonnegative quotient truncates downward, which on exact
arithmetic is `len(matched) * 100 / len(required)` in ℕ. -/
def skill_gap (requiredSkills : List PyStr) (userSkillsRaw : PyStr) : SkillGapResult :=
  let required := requiredSkills.map (fun sk => pyLower (pyStrip sk))
  let user_sk := parseUserSkills userSkillsRaw
  let matched := required.filter (fun sk => user_sk.contains sk)
  let missing := required.filter (fun sk => !user_sk.contains sk)
  SkillGapResult.mk required matched missing
    (if required.isEmpty then 0 else matched.length * 100 / required.length)

/-! ## Chatbot answer lookup (`chatbot_ask`, src/app.py:897-927) -/

/-- A FAQ document: question text, answer text, comma-separated keywords. -/
structure Faq where
  question : PyStr
  answer : PyStr
  keywords : PyStr
deriving DecidableEq

/-- The per-entry score of src/app.py:906-910: +3 for every comma-split,
stripped, lowered, nonempty keyword token occurring as a substring of the
query; +1 for every whitespace-split token of the lowered question text longer
than 3 characters occurring as a substring of the query. -/
def faqScore (query : PyStr) (f : Faq) : Nat :=
  3 * ((pySplitComma f.keywords).filter
        (fun kw => !(pyStrip kw).isEmpty && strHas query (pyLower (pyStrip kw)))).length
  + ((pySplitWs (pyLower f.question)).filter
        (fun w => decide (3 < w.length) && strHas query w)).length

/-- The scan loop of src/app.py:904-913: starting from
`best_match, best_score = None, 0`, each entry replaces the running best only
when its score is *strictly* greater. -/
def bestScan (query : PyStr) : List Faq → Option PyStr → Nat → Option PyStr × Nat
  | [], best, bs => (best, bs)
  | f :: rest, best, bs =>
    if bs < faqScore query f then bestScan query rest (some f.answer) (faqScore query f)
    else bestScan query rest best bs

def greetingReply : PyStr :=
  "Hello! 👋 I am PlacementBot. Ask me about cutoffs, drives, resume, or referrals!".data

def thanksReply : PyStr := "You\x27re welcome! Best of luck! 😊".data

def byeReply : PyStr := "Goodbye! All the best! 🎓".data

def notUnderstoodReply : PyStr :=
  ("I\x27m not sure about that. Try asking about:\n• CGPA cutoffs\n• Interview schedule\n• How to apply\n• Resume download\n• Alumni referrals").data

def typeMessageReply : PyStr := "Please type a message.".data

/-- The elif-chain of src/app.py:917-926, reached when no FAQ matched
positively. -/
def fallbackReply (query : PyStr) : PyStr :=
  if ["hi".data, "hello".data, "hey".data, "good morning".data, "good evening".data].any
      (fun g => strHas query g) then greetingReply
  else if strHas query "thank".data then thanksReply
  else if strHas query "bye".data then byeReply
  else notUnderstoodReply

/-- The reply computation after query normalization: Python
`if best_match and best_score > 0: reply = best_match` and otherwise the
fallback chain (`best_match` must be both non-`None` and nonempty to be
truthy). -/
def chatbotReplyOf (query : PyStr) (faqs : List Faq) : PyStr :=
  match bestScan query faqs none 0 with
  | (some ans, bs) =>
    if !ans.isEmpty && decide (0 < bs) then ans else fallbackReply query
  | (none, _) => fallbackReply query

/-- The whole route body: `query = ...get('message', '').strip().lower()`,
an empty query short-circuits to a prompt, else the scan plus fallbacks. -/
def chatbot_ask (message : PyStr) (faqs : List Faq) : PyStr :=
  if (pyLower (pyStrip message)).isEmpty then typeMessageReply
  else chatbotReplyOf (pyLower (pyStrip message)) faqs

/-! ## Notification fan-out (`admin_criteria` notify action, src/app.py:342-356) -/

/-- The fan-out loop: for every eligible recipient the route builds and sends
a message inside `try: ... mail.send(msg); sent += 1 except Exception: pass` —
a failing send is swallowed, the loop continues, and only successful sends are
counted.  `send e = true` models a delivered send, `send e = false` a send
that raised. -/
def notify_eligible (recipients : List String) (send : String → Bool) : Nat :=
  recipients.foldl (fun sent e => if send e then sent + 1 else sent) 0

/-! ## Theorems -/

/-- C1 (counterexample): a student whose document carries a branch and a
backlog count but no `cgpa` field, facing a drive with `min_cgpa = 0` and
`max_backlogs = 0`, satisfies all three conditions of the claim (with the
claimed default of 0 for an absent CGPA) and indeed passes the student-side
check, yet the admin-side listing for the drive omits the student: the MongoDB
`$gte` filter does not match a document whose `cgpa` field is absent. -/
theorem c1_counterexample :
    (("CSE" ∈ (Drive.mk "d0" ["CSE"] 0 0).allowed_branches) ∧
      (Student.mk "s0" (some "CSE") none (some 0)).branch = some "CSE" ∧
      (Drive.mk "d0" ["CSE"] 0 0).min_cgpa ≤ (Student.mk "s0" (some "CSE") none (some 0)).cgpa.getD 0 ∧
      (Student.mk "s0" (some "CSE") none (some 0)).backlogs.getD 0 ≤ (Drive.mk "d0" ["CSE"] 0 0).max_backlogs) ∧
    is_eligible (Student.mk "s0" (some "CSE") none (some 0)) (Drive.mk "d0" ["CSE"] 0 0) = true ∧
    matched_students [Student.mk "s0" (some "CSE") none (some 0)] (Drive.mk "d0" ["CSE"] 0 0) = [] := by
  decide

/-- C1 (amended): the student-side check `is_eligible` is true iff the branch
is allowed, the CGPA — defaulting to 0 when absent — reaches the drive minimum,
and the backlog count — defaulting to 0 when absent — is within the drive
maximum.  The admin-side listing `matched_students` lists a student iff the
student is in the collection and additionally the `cgpa` and `backlogs`
fields are *present* and satisfy the same bounds: a student missing either
numeric field is never listed, even when the thresholds are 0. -/
theorem c1_eligibility_check (students : List Student) (s : Student) (d : Drive) :
    (is_eligible s d = true ↔
      ((∃ b, s.branch = some b ∧ b ∈ d.allowed_branches) ∧
        d.min_cgpa ≤ s.cgpa.getD 0 ∧ s.backlogs.getD 0 ≤ d.max_backlogs)) ∧
    (s ∈ matched_students students d ↔
      (s ∈ students ∧ (∃ b, s.branch = some b ∧ b ∈ d.allowed_branches) ∧
        (∃ c, s.cgpa = some c ∧ d.min_cgpa ≤ c) ∧
        (∃ k, s.backlogs = some k ∧ k ≤ d.max_backlogs))) := by
  constructor
  · cases hb : s.branch with
    | none => simp [is_eligible, hb]
    | some b => simp [is_eligible, hb, and_assoc]
  · rw [matched_students, List.mem_filter]
    cases hb : s.branch with
    | none => simp [criteriaMatch, hb]
    | some b =>
      cases hc : s.cgpa with
      | none => simp [criteriaMatch, hb, hc]
      | some c =>
        cases hk : s.backlogs with
        | none => simp [criteriaMatch, hb, hc, hk]
        | some k => simp [criteriaMatch, hb, hc, hk, and_assoc]

theorem book_cons_hit (ms : MentorSlot) (rest : List MentorSlot) (slotId : Nat)
    (student : String) (hid : ms.msid = slotId) (hb : ms.booked_by = none) :
    book_mentorship_slot (ms :: rest) slotId student
      = ({ ms with booked_by := some student } :: rest, true) := by
  rw [book_mentorship_slot, if_pos ⟨hid, hb⟩]

theorem book_cons_miss (ms : MentorSlot) (rest : List MentorSlot) (slotId : Nat)
    (student : String) (hc : ¬(ms.msid = slotId ∧ ms.booked_by = none)) :
    book_mentorship_slot (ms :: rest) slotId student
      = ((ms :: (book_mentorship_slot rest slotId student).1),
          (book_mentorship_slot rest slotId student).2) := by
  rw [book_mentorship_slot, if_neg hc]

/-- Scanning a list in which no document matches the booking filter changes
nothing and reports no modification. -/
theorem book_scan_no_match (slotId : Nat) (student : String) :
    ∀ slots : List MentorSlot,
      (∀ ms ∈ slots, ¬(ms.msid = slotId ∧ ms.booked_by = none)) →
      book_mentorship_slot slots slotId student = (slots, false) := by
  intro slots
  induction slots with
  | nil => intro _; rfl
  | cons ms rest ih =>
    intro h
    rw [book_cons_miss ms rest slotId student (h ms (List.mem_cons_self ms rest))]
    rw [ih (fun x hx => h x (List.mem_cons_of_mem ms hx))]

/-- C2: booking is a compare-and-set on the claimant field.  For a slot whose
id is unique in the collection: if its `booked_by` field is empty the claim
succeeds and the sole change is setting that field to the claiming student;
if the slot is already claimed by anyone (the same student included), the
operation reports failure and the entire collection is left unchanged. -/
theorem c2_booking_compare_and_set (l₁ l₂ : List MentorSlot) (ms : MentorSlot) (student : String)
    (h : ∀ x ∈ l₁ ++ l₂, x.msid ≠ ms.msid) :
    (ms.booked_by = none →
      book_mentorship_slot (l₁ ++ ms :: l₂) ms.msid student
        = (l₁ ++ { ms with booked_by := some student } :: l₂, true)) ∧
    (ms.booked_by ≠ none →
      book_mentorship_slot (l₁ ++ ms :: l₂) ms.msid student = (l₁ ++ ms :: l₂, false)) := by
  induction l₁ with
  | nil =>
    constructor
    · intro hb
      simp only [List.nil_append]
      exact book_cons_hit ms l₂ ms.msid student rfl hb
    · intro hb
      simp only [List.nil_append]
      rw [book_cons_miss ms l₂ ms.msid student (fun hc => hb hc.2)]
      rw [book_scan_no_match _ _ l₂ (fun x hx hc => h x (by simpa using hx) hc.1)]
  | cons a l₁ ih =>
    have ha : a.msid ≠ ms.msid := h a (List.mem_cons_self _ _)
    have h' : ∀ x ∈ l₁ ++ l₂, x.msid ≠ ms.msid := by
      intro x hx
      exact h x (List.mem_cons_of_mem a hx)
    constructor
    · intro hb
      simp only [List.cons_append]
      rw [book_cons_miss a (l₁ ++ ms :: l₂) ms.msid student (fun hc => ha hc.1)]
      rw [(ih h').1 hb]
    · intro hb
      simp only [List.cons_append]
      rw [book_cons_miss a (l₁ ++ ms :: l₂) ms.msid student (fun hc => ha hc.1)]
      rw [(ih h').2 hb]

/-- C2 (witness): concrete instances of both branches of the compare-and-set:
an unclaimed slot is claimed successfully, and a slot already claimed — even by
the very student retrying — rejects the claim and stays unchanged. -/
theorem c2_booking_compare_and_set_witness :
    (book_mentorship_slot [MentorSlot.mk 1 "a1" 10 "link" none] 1 "s1"
       = ([MentorSlot.mk 1 "a1" 10 "link" (some "s1")], true)) ∧
    (book_mentorship_slot [MentorSlot.mk 1 "a1" 10 "link" (some "s1")] 1 "s1"
       = ([MentorSlot.mk 1 "a1" 10 "link" (some "s1")], false)) := by
  constructor
  · exact (c2_booking_compare_and_set [] [] (MentorSlot.mk 1 "a1" 10 "link" none) "s1"
      (by intro x hx; simp at hx)).1 rfl
  · exact (c2_booking_compare_and_set [] [] (MentorSlot.mk 1 "a1" 10 "link" (some "s1")) "s1"
      (by intro x hx; simp at hx)).2 (by simp)

theorem hasApplication_iff_pair_ne_nil (apps : List Application) (studentId driveId : String) :
    hasApplication apps studentId driveId = true ↔
      pairApplications apps studentId driveId ≠ [] := by
  rw [hasApplication, pairApplications, List.any_eq_true]
  constructor
  · rintro ⟨a, ha, hp⟩ hnil
    exact (List.filter_eq_nil_iff.mp hnil) a ha hp
  · intro hne
    rcases List.exists_mem_of_ne_nil _ hne with ⟨a, ha⟩
    exact ⟨a, (List.mem_filter.mp ha).1, (List.mem_filter.mp ha).2⟩

/-- Once the pair has an application, any further apply request leaves the
collection entirely unchanged. -/
theorem applySeq_saturated (studentId driveId : String) :
    ∀ (ts : List Nat) (apps : List Application),
      hasApplication apps studentId driveId = true →
      applySeq apps studentId driveId ts = apps := by
  intro ts
  induction ts with
  | nil => intro apps _; rfl
  | cons t ts ih =>
    intro apps h
    rw [applySeq, student_apply, if_pos h]
    exact ih apps h

/-- C3: starting from a collection holding no application for the pair, any
nonempty sequence of apply requests for that pair leaves *exactly one*
application document for it: the one inserted by the first request, with
status `applied` and the first request's timestamp; repeat requests change
nothing. -/
theorem c3_apply_idempotent (apps : List Application) (studentId driveId : String)
    (t : Nat) (ts : List Nat)
    (h : pairApplications apps studentId driveId = []) :
    pairApplications (applySeq apps studentId driveId (t :: ts)) studentId driveId
      = [Application.mk studentId driveId "applied" t] := by
  have hno : hasApplication apps studentId driveId = false := by
    by_contra hne
    rw [Bool.not_eq_false] at hne
    exact (hasApplication_iff_pair_ne_nil apps studentId driveId).mp hne h
  rw [applySeq, student_apply, if_neg (by rw [hno]; exact Bool.false_ne_true)]
  have hsat : hasApplication (apps ++ [Application.mk studentId driveId "applied" t])
      studentId driveId = true := by
    rw [hasApplication, List.any_eq_true]
    exact ⟨Application.mk studentId driveId "applied" t, by simp, by simp⟩
  rw [applySeq_saturated studentId driveId ts _ hsat]
  rw [pairApplications, List.filter_append, ← pairApplications, h]
  simp

/-- C3 (witness): from an empty collection, applying three times (at times 5,
6, 7) leaves exactly the single record created by the first request. -/
theorem c3_apply_idempotent_witness :
    pairApplications (applySeq [] "s1" "d1" [5, 6, 7]) "s1" "d1"
      = [Application.mk "s1" "d1" "applied" 5] :=
  c3_apply_idempotent [] "s1" "d1" 5 [6, 7] (by decide)

/-- C6 (counterexample): a student who fails every eligibility condition of a
drive (wrong branch, CGPA below minimum, backlogs above maximum) still gets a
fresh Application inserted by the apply route. -/
theorem c6_counterexample :
    is_eligible (Student.mk "s9" (some "ME") (some 5) (some 3)) (Drive.mk "d9" ["CSE"] 6 0)
      = false ∧
    student_apply_route [] (Student.mk "s9" (some "ME") (some 5) (some 3)) "d9" 10
      = ([Application.mk "s9" "d9" "applied" 10], true) := by
  decide

/-- C6 (amended): the apply route performs no eligibility check: whenever no
application for the (student, drive) pair exists yet, a new `applied` record
is inserted — even when the student is ineligible for the drive. -/
theorem c6_apply_ignores_eligibility (apps : List Application) (s : Student) (d : Drive)
    (now : Nat) (helig : is_eligible s d = false)
    (h : pairApplications apps s.sid d.did = []) :
    student_apply_route apps s d.did now
      = (apps ++ [Application.mk s.sid d.did "applied" now], true) := by
  have hno : hasApplication apps s.sid d.did = false := by
    by_contra hne
    rw [Bool.not_eq_false] at hne
    exact (hasApplication_iff_pair_ne_nil apps s.sid d.did).mp hne h
  rw [student_apply_route, student_apply, if_neg (by rw [hno]; exact Bool.false_ne_true)]

/-- C6 (witness): the amended theorem applied at the concrete ineligible
student of the counterexample's shape, starting from an empty collection. -/
theorem c6_apply_ignores_eligibility_witness :
    student_apply_route [] (Student.mk "s9" (some "ME") (some 5) (some 3)) "d9" 10
      = ([Application.mk "s9" "d9" "applied" 10], true) := by
  have h := c6_apply_ignores_eligibility [] (Student.mk "s9" (some "ME") (some 5) (some 3))
    (Drive.mk "d9" ["CSE"] 6 0) 10 (by decide) (by decide)
  simpa using h

/-- C4 (counterexample): with a single existing slot — candidate `s1` at time
10 for drive `d1` — re-submitting the very same (candidate, drive) pair at its
own existing time is rejected as a conflict, although no slot for any *other*
drive exists at that time; the claim says this case is not a conflict. -/
theorem c4_counterexample :
    (admin_schedule
        (SchedulerDB.mk [Interview.mk 1 "d1" "s1" 10 "v" "n"] [] 2) "d1" "s1" 10 "v" "n").2
      = false ∧
    (SchedulerDB.mk [Interview.mk 1 "d1" "s1" 10 "v" "n"] [] 2).interviews.all
        (fun iv => iv.drive_id == "d1") = true := by
  decide

/-- C4 (amended): the scheduler rejects with a conflict iff an interview slot
already exists for that candidate at that exact time for *any* drive — the
same drive included.  Consequently scheduling the same candidate at identical
times for two different drives conflicts on the second call, scheduling at a
time the candidate has no slot at always succeeds, and re-scheduling a pair
at its own current time is also rejected. -/
theorem c4_conflict_any_drive (db : SchedulerDB) (driveId studentId : String) (t : Nat)
    (venue notes : String) :
    (admin_schedule db driveId studentId t venue notes).2 = false ↔
      ∃ iv ∈ db.interviews, iv.student_id = studentId ∧ iv.time_slot = t := by
  have hiff : hasConflict db.interviews studentId t = true ↔
      ∃ iv ∈ db.interviews, iv.student_id = studentId ∧ iv.time_slot = t := by
    rw [hasConflict, List.any_eq_true]
    constructor
    · rintro ⟨iv, hm, hp⟩
      rw [Bool.and_eq_true, beq_iff_eq, beq_iff_eq] at hp
      exact ⟨iv, hm, hp⟩
    · rintro ⟨iv, hm, h1, h2⟩
      refine ⟨iv, hm, ?_⟩
      rw [Bool.and_eq_true, beq_iff_eq, beq_iff_eq]
      exact ⟨h1, h2⟩
  rw [admin_schedule]
  by_cases h : hasConflict db.interviews studentId t = true
  · rw [if_pos h]
    simpa using hiff.mp h
  · rw [if_neg h]
    constructor
    · intro hfalse
      exact absurd hfalse (by simp)
    · intro hex
      exact absurd (hiff.mpr hex) h

theorem pairSlots_pred_iff (iv : Interview) (driveId studentId : String) :
    (iv.drive_id == driveId && iv.student_id == studentId) = true ↔
      (iv.drive_id = driveId ∧ iv.student_id = studentId) := by
  rw [Bool.and_eq_true, beq_iff_eq, beq_iff_eq]

/-- A list whose filtration by `p` has exactly one element splits around that
element, with `p` false everywhere else. -/
theorem filter_length_one_split {α : Type} (p : α → Bool) :
    ∀ l : List α, (l.filter p).length = 1 →
      ∃ l₁ a l₂, l = l₁ ++ a :: l₂ ∧ p a = true ∧
        (∀ x ∈ l₁, p x = false) ∧ (∀ x ∈ l₂, p x = false) := by
  intro l
  induction l with
  | nil => intro h; simp at h
  | cons a rest ih =>
    intro h
    by_cases hp : p a = true
    · rw [List.filter_cons_of_pos hp, List.length_cons, Nat.add_left_eq_self] at h
      have hnil := List.length_eq_zero.mp h
      refine ⟨[], a, rest, rfl, hp, fun x hx => absurd hx (List.not_mem_nil x), fun x hx => ?_⟩
      by_contra hpx
      rw [Bool.not_eq_false] at hpx
      exact (List.filter_eq_nil_iff.mp hnil) x hx hpx
    · rw [Bool.not_eq_true] at hp
      rw [List.filter_cons_of_neg (by rw [hp]; exact Bool.false_ne_true)] at h
      rcases ih h with ⟨l₁, b, l₂, heq, hb, h1, h2⟩
      refine ⟨a :: l₁, b, l₂, by rw [heq, List.cons_append], hb, fun x hx => ?_, h2⟩
      rcases List.mem_cons.mp hx with hx | hx
      · rw [hx]; exact hp
      · exact h1 x hx

/-- An upsert over a list with no matching document appends a fresh one. -/
theorem upsert_no_match (newId : Nat) (driveId studentId : String) (t : Nat)
    (venue notes : String) :
    ∀ ivs : List Interview,
      (∀ iv ∈ ivs, ¬(iv.drive_id = driveId ∧ iv.student_id = studentId)) →
      upsertInterview ivs newId driveId studentId t venue notes
        = (ivs ++ [Interview.mk newId driveId studentId t venue notes], true) := by
  intro ivs
  induction ivs with
  | nil => intro _; rfl
  | cons iv rest ih =>
    intro h
    rw [upsertInterview, if_neg (h iv (List.mem_cons_self iv rest))]
    rw [ih (fun x hx => h x (List.mem_cons_of_mem iv hx))]
    rfl

/-- An upsert over a list whose first matching document is `iv` updates `iv`
in place and inserts nothing. -/
theorem upsert_first_match (newId : Nat) (driveId studentId : String) (t : Nat)
    (venue notes : String) (iv : Interview) (l₂ : List Interview)
    (hm : iv.drive_id = driveId ∧ iv.student_id = studentId) :
    ∀ l₁ : List Interview,
      (∀ x ∈ l₁, ¬(x.drive_id = driveId ∧ x.student_id = studentId)) →
      upsertInterview (l₁ ++ iv :: l₂) newId driveId studentId t venue notes
        = (l₁ ++ { iv with time_slot := t, venue := venue, notes := notes } :: l₂, false) := by
  intro l₁
  induction l₁ with
  | nil =>
    intro _
    simp only [List.nil_append]
    rw [upsertInterview, if_pos hm]
  | cons a l₁ ih =>
    intro h
    simp only [List.cons_append]
    rw [upsertInterview, if_neg (h a (List.mem_cons_self a l₁))]
    rw [ih (fun x hx => h x (List.mem_cons_of_mem a hx))]

/-- C5: when a (drive, student) pair already has exactly one interview slot
and a schedule call for that pair succeeds, the slot is rewritten in place:
the pair still has exactly one slot, the collection's size is unchanged, the
surviving slot keeps its original document id, and it now carries the new
time, venue and notes. -/
theorem c5_reschedule_in_place (db : SchedulerDB) (driveId studentId : String) (t : Nat)
    (venue notes : String)
    (h1 : (pairSlots db.interviews driveId studentId).length = 1)
    (h2 : (admin_schedule db driveId studentId t venue notes).2 = true) :
    ((pairSlots (admin_schedule db driveId studentId t venue notes).1.interviews
        driveId studentId).length = 1) ∧
    ((admin_schedule db driveId studentId t venue notes).1.interviews.length
        = db.interviews.length) ∧
    ((pairSlots (admin_schedule db driveId studentId t venue notes).1.interviews
        driveId studentId).map (fun iv => iv.ivid)
      = (pairSlots db.interviews driveId studentId).map (fun iv => iv.ivid)) ∧
    (∃ iv ∈ (admin_schedule db driveId studentId t venue notes).1.interviews,
        iv.drive_id = driveId ∧ iv.student_id = studentId ∧ iv.time_slot = t ∧
        iv.venue = venue ∧ iv.notes = notes) := by
  have hnc : hasConflict db.interviews studentId t = false := by
    by_contra hc
    rw [Bool.not_eq_false] at hc
    rw [admin_schedule, if_pos hc] at h2
    exact Bool.false_ne_true h2
  have hsched : admin_schedule db driveId studentId t venue notes
      = (SchedulerDB.mk
          (upsertInterview db.interviews db.next_id driveId studentId t venue notes).1
          (setInterviewScheduled db.applications studentId driveId)
          (if (upsertInterview db.interviews db.next_id driveId studentId t venue notes).2 then
            db.next_id + 1 else db.next_id),
          true) := by
    rw [admin_schedule, if_neg (by rw [hnc]; exact Bool.false_ne_true)]
  rcases filter_length_one_split _ db.interviews h1 with ⟨l₁, iv, l₂, heq, hiv, hl₁, hl₂⟩
  have hm := (pairSlots_pred_iff iv driveId studentId).mp hiv
  have hup : (upsertInterview db.interviews db.next_id driveId studentId t venue notes).1
      = l₁ ++ { iv with time_slot := t, venue := venue, notes := notes } :: l₂ := by
    rw [heq, upsert_first_match db.next_id driveId studentId t venue notes iv l₂ hm l₁
      (fun x hx hc => by
        have := hl₁ x hx
        rw [(pairSlots_pred_iff x driveId studentId).mpr hc] at this
        exact Bool.true_eq_false.mp this)]
  have hupd_pred : ((({ iv with time_slot := t, venue := venue, notes := notes } :
      Interview)).drive_id == driveId &&
      (({ iv with time_slot := t, venue := venue, notes := notes } :
      Interview)).student_id == studentId) = true := by
    exact (pairSlots_pred_iff _ driveId studentId).mpr ⟨hm.1, hm.2⟩
  have hfilter : pairSlots (l₁ ++ { iv with time_slot := t, venue := venue, notes := notes }
      :: l₂) driveId studentId
      = [{ iv with time_slot := t, venue := venue, notes := notes }] := by
    rw [pairSlots, List.filter_append, List.filter_cons, if_pos hupd_pred]
    rw [List.filter_eq_nil_iff.mpr (fun x hx => by rw [hl₁ x hx]; exact Bool.false_ne_true),
      List.filter_eq_nil_iff.mpr (fun x hx => by rw [hl₂ x hx]; exact Bool.false_ne_true)]
    rfl
  have hold : pairSlots db.interviews driveId studentId = [iv] := by
    rw [heq, pairSlots, List.filter_append, List.filter_cons, if_pos hiv]
    rw [List.filter_eq_nil_iff.mpr (fun x hx => by rw [hl₁ x hx]; exact Bool.false_ne_true),
      List.filter_eq_nil_iff.mpr (fun x hx => by rw [hl₂ x hx]; exact Bool.false_ne_true)]
    rfl
  refine ⟨?_, ?_, ?_, ?_⟩
  · rw [hsched]
    show (pairSlots (upsertInterview db.interviews db.next_id driveId studentId t
      venue notes).1 driveId studentId).length = 1
    rw [hup, hfilter]
    rfl
  · rw [hsched]
    show (upsertInterview db.interviews db.next_id driveId studentId t
      venue notes).1.length = db.interviews.length
    rw [hup, heq, List.length_append, List.length_append, List.length_cons, List.length_cons]
  · rw [hsched]
    show (pairSlots (upsertInterview db.interviews db.next_id driveId studentId t
      venue notes).1 driveId studentId).map (fun iv => iv.ivid)
      = (pairSlots db.interviews driveId studentId).map (fun iv => iv.ivid)
    rw [hup, hfilter, hold]
    rfl
  · rw [hsched]
    refine ⟨{ iv with time_slot := t, venue := venue, notes := notes }, ?_,
      hm.1, hm.2, rfl, rfl, rfl⟩
    show _ ∈ (upsertInterview db.interviews db.next_id driveId studentId t venue notes).1
    rw [hup]
    exact List.mem_append_right l₁ (List.mem_cons_self _ _)

/-- C5 (witness): a pair with one slot at time 10 is rescheduled to time 20:
still one slot, same collection size, same document id, new fields. -/
theorem c5_reschedule_in_place_witness :
    (pairSlots (SchedulerDB.mk [Interview.mk 1 "d1" "s1" 10 "v" "n"]
        [Application.mk "s1" "d1" "applied" 0] 2).interviews "d1" "s1").length = 1 ∧
    (admin_schedule (SchedulerDB.mk [Interview.mk 1 "d1" "s1" 10 "v" "n"]
        [Application.mk "s1" "d1" "applied" 0] 2) "d1" "s1" 20 "v2" "n2").2 = true ∧
    ((pairSlots (admin_schedule (SchedulerDB.mk [Interview.mk 1 "d1" "s1" 10 "v" "n"]
        [Application.mk "s1" "d1" "applied" 0] 2) "d1" "s1" 20 "v2" "n2").1.interviews
        "d1" "s1").length = 1 ∧
      ∃ iv ∈ (admin_schedule (SchedulerDB.mk [Interview.mk 1 "d1" "s1" 10 "v" "n"]
        [Application.mk "s1" "d1" "applied" 0] 2) "d1" "s1" 20 "v2" "n2").1.interviews,
        iv.drive_id = "d1" ∧ iv.student_id = "s1" ∧ iv.time_slot = 20 ∧
        iv.venue = "v2" ∧ iv.notes = "n2") := by
  refine ⟨by decide, by decide, ?_⟩
  have h := c5_reschedule_in_place (SchedulerDB.mk [Interview.mk 1 "d1" "s1" 10 "v" "n"]
    [Application.mk "s1" "d1" "applied" 0] 2) "d1" "s1" 20 "v2" "n2" (by decide) (by decide)
  exact ⟨h.1, h.2.2.2⟩

theorem admin_delete_interview_scan_sublist (ivId : Nat) :
    ∀ l : List Interview, (admin_delete_interview_scan l ivId).Sublist l := by
  intro l
  induction l with
  | nil => exact List.Sublist.refl []
  | cons iv rest ih =>
    rw [admin_delete_interview_scan]
    by_cases h : iv.ivid = ivId
    · rw [if_pos h]
      exact List.Sublist.cons iv (List.Sublist.refl rest)
    · rw [if_neg h]
      exact List.Sublist.cons₂ iv ih

theorem admin_delete_interview_scan_keeps (ivId : Nat) :
    ∀ l : List Interview, ∀ iv ∈ l, iv.ivid ≠ ivId →
      iv ∈ admin_delete_interview_scan l ivId := by
  intro l
  induction l with
  | nil => intro iv hm; exact absurd hm (List.not_mem_nil iv)
  | cons a rest ih =>
    intro iv hm hne
    rw [admin_delete_interview_scan]
    rcases List.mem_cons.mp hm with hm | hm
    · subst hm
      rw [if_neg hne]
      exact List.mem_cons_self iv _
    · by_cases h : a.ivid = ivId
      · rw [if_pos h]
        exact hm
      · rw [if_neg h]
        exact List.mem_cons_of_mem a (ih iv hm hne)

/-- C9: removing an interview slot touches nothing but the interviews
collection: every application record (its status included) is left exactly as
it was, the remaining interviews are a sub-sequence of the original ones, and
every interview with a different id survives. -/
theorem c9_remove_interview_frame (db : SchedulerDB) (ivId : Nat) :
    (admin_delete_interview db ivId).applications = db.applications ∧
    (admin_delete_interview db ivId).interviews.Sublist db.interviews ∧
    (∀ iv ∈ db.interviews, iv.ivid ≠ ivId →
      iv ∈ (admin_delete_interview db ivId).interviews) := by
  refine ⟨rfl, ?_, ?_⟩
  · exact admin_delete_interview_scan_sublist ivId db.interviews
  · exact fun iv hm hne => admin_delete_interview_scan_keeps ivId db.interviews iv hm hne

/-- C9 (witness): deleting slot 1 from a two-slot collection with one
application: the application survives verbatim and the other slot remains. -/
theorem c9_remove_interview_frame_witness :
    (admin_delete_interview (SchedulerDB.mk
        [Interview.mk 1 "d1" "s1" 10 "v" "n", Interview.mk 2 "d2" "s1" 20 "v" "n"]
        [Application.mk "s1" "d1" "interview_scheduled" 0] 3) 1).applications
      = [Application.mk "s1" "d1" "interview_scheduled" 0] ∧
    Interview.mk 2 "d2" "s1" 20 "v" "n" ∈ (admin_delete_interview (SchedulerDB.mk
        [Interview.mk 1 "d1" "s1" 10 "v" "n", Interview.mk 2 "d2" "s1" 20 "v" "n"]
        [Application.mk "s1" "d1" "interview_scheduled" 0] 3) 1).interviews := by
  have h := c9_remove_interview_frame (SchedulerDB.mk
    [Interview.mk 1 "d1" "s1" 10 "v" "n", Interview.mk 2 "d2" "s1" 20 "v" "n"]
    [Application.mk "s1" "d1" "interview_scheduled" 0] 3) 1
  exact ⟨h.1, h.2.2 (Interview.mk 2 "d2" "s1" 20 "v" "n") (by decide) (by decide)⟩

/-- C7 (counterexample): two of three required skills matched gives the
truncated percentage 66, but the claimed `round(|matched| / |required| * 100)`
is 67. -/
theorem c7_counterexample :
    (skill_gap ["sql".data, "python".data, "java".data] "sql,python".data).matched.length = 2 ∧
    (skill_gap ["sql".data, "python".data, "java".data] "sql,python".data).required.length = 3 ∧
    (skill_gap ["sql".data, "python".data, "java".data] "sql,python".data).pct = 66 ∧
    round ((2 : ℚ) / 3 * 100) = 67 := by
  refine ⟨by decide, by decide, by decide, ?_⟩
  rw [round_eq]
  rw [show (2 : ℚ) / 3 * 100 + 1 / 2 = ((403 : ℕ) : ℚ) / ((6 : ℕ) : ℚ) by norm_num]
  rw [Rat.floor_natCast_div_natCast]
  decide

/-- Truncating natural division agrees with the rational floor. -/
theorem natDiv_cast_eq_floor (m r : ℕ) :
    ((m * 100 / r : ℕ) : ℤ) = ⌊(m : ℚ) / (r : ℚ) * 100⌋ := by
  have h1 : (m : ℚ) / (r : ℚ) * 100 = ((m * 100 : ℕ) : ℚ) / ((r : ℕ) : ℚ) := by
    push_cast
    ring
  rw [h1, Rat.floor_natCast_div_natCast]
  exact Int.natCast_div _ _

/-- C7 (amended): `matched` and `missing` are in-order sub-sequences of the
normalized required list; the coverage percentage is the *floor* (truncation,
as Python `int()`) of `|matched| / |required| * 100`, not the nearest-integer
rounding; and an empty required list yields 0 without any division failure. -/
theorem c7_skill_gap_truncates (requiredSkills : List PyStr) (userSkillsRaw : PyStr) :
    (skill_gap requiredSkills userSkillsRaw).matched.Sublist
        (skill_gap requiredSkills userSkillsRaw).required ∧
    (skill_gap requiredSkills userSkillsRaw).missing.Sublist
        (skill_gap requiredSkills userSkillsRaw).required ∧
    (((skill_gap requiredSkills userSkillsRaw).pct : ℤ)
        = ⌊((skill_gap requiredSkills userSkillsRaw).matched.length : ℚ)
            / ((skill_gap requiredSkills userSkillsRaw).required.length : ℚ) * 100⌋) ∧
    (skill_gap [] userSkillsRaw).pct = 0 := by
  refine ⟨?_, ?_, ?_, rfl⟩
  · simp only [skill_gap]
    exact List.filter_sublist _
  · simp only [skill_gap]
    exact List.filter_sublist _
  · simp only [skill_gap]
    by_cases he : (requiredSkills.map (fun sk => pyLower (pyStrip sk))).isEmpty
    · rw [if_pos he]
      rw [List.isEmpty_iff] at he
      rw [he]
      simp
    · rw [if_neg he]
      exact natDiv_cast_eq_floor _ _

/-- C8 (counterexample): an entry with the strictly highest positive score
(5 points) but an *empty* answer string is not returned: the reply falls
through to the generic not-understood response, because the source guard
`if best_match and best_score > 0` also tests the truthiness of the answer
text.  (An empty answer is reachable: the FAQ `update` action stores
`request.form.get('answer', '').strip()` without requiring it nonempty.) -/
theorem c8_counterexample :
    faqScore (pyLower (pyStrip "how do i apply for drives".data))
      (Faq.mk "how to apply for campus drives".data [] "apply".data) = 5 ∧
    (Faq.mk "how to apply for campus drives".data [] "apply".data).answer = [] ∧
    chatbot_ask "how do i apply for drives".data
      [Faq.mk "how to apply for campus drives".data [] "apply".data]
      = notUnderstoodReply := by
  refine ⟨by decide, rfl, by decide⟩

/-- The scan loop either keeps its accumulator — when no entry beats it — or
returns the answer and score of the first entry attaining the running
maximum: every earlier entry scores strictly less, every later entry scores
no more. -/
theorem bestScan_spec (query : PyStr) :
    ∀ (l : List Faq) (best : Option PyStr) (bs : Nat),
      (bestScan query l best bs = (best, bs) ∧ ∀ f ∈ l, faqScore query f ≤ bs)
      ∨ (∃ l₁ f l₂, l = l₁ ++ f :: l₂ ∧
          bestScan query l best bs = (some f.answer, faqScore query f) ∧
          bs < faqScore query f ∧
          (∀ g ∈ l₁, faqScore query g < faqScore query f) ∧
          (∀ g ∈ l₂, faqScore query g ≤ faqScore query f)) := by
  intro l
  induction l with
  | nil =>
    intro best bs
    exact Or.inl ⟨rfl, fun f hf => absurd hf (List.not_mem_nil f)⟩
  | cons f rest ih =>
    intro best bs
    by_cases h : bs < faqScore query f
    · rcases ih (some f.answer) (faqScore query f) with ⟨heq, hle⟩ | ⟨l₁, g, l₂, heq, hres, hlt, h1, h2⟩
      · refine Or.inr ⟨[], f, rest, rfl, ?_, h, fun g hg => absurd hg (List.not_mem_nil g), hle⟩
        rw [bestScan, if_pos h, heq]
      · refine Or.inr ⟨f :: l₁, g, l₂, by rw [heq]; rfl, ?_, Nat.lt_trans h hlt, ?_, h2⟩
        · rw [bestScan, if_pos h, hres]
        · intro x hx
          rcases List.mem_cons.mp hx with hx | hx
          · rw [hx]; exact hlt
          · exact h1 x hx
    · rcases ih best bs with ⟨heq, hle⟩ | ⟨l₁, g, l₂, heq, hres, hlt, h1, h2⟩
      · refine Or.inl ⟨?_, ?_⟩
        · rw [bestScan, if_neg h, heq]
        · intro x hx
          rcases List.mem_cons.mp hx with hx | hx
          · rw [hx]; exact Nat.le_of_not_lt h
          · exact hle x hx
      · refine Or.inr ⟨f :: l₁, g, l₂, by rw [heq]; rfl, ?_, hlt, ?_, h2⟩
        · rw [bestScan, if_neg h, hres]
        · intro x hx
          rcases List.mem_cons.mp hx with hx | hx
          · rw [hx]
            exact Nat.lt_of_le_of_lt (Nat.le_of_not_lt h) hlt
          · exact h1 x hx

/-- The fallback chain always returns one of the four canned responses. -/
theorem fallbackReply_cases (query : PyStr) :
    fallbackReply query = greetingReply ∨ fallbackReply query = thanksReply ∨
    fallbackReply query = byeReply ∨ fallbackReply query = notUnderstoodReply := by
  rw [fallbackReply]
  split_ifs
  · exact Or.inl rfl
  · exact Or.inr (Or.inl rfl)
  · exact Or.inr (Or.inr (Or.inl rfl))
  · exact Or.inr (Or.inr (Or.inr rfl))

/-- C8 (amended): for a nonempty normalized query and entries whose answer
texts are nonempty (every entry the admin routes can store), the reply is the
answer of the *first* entry attaining the strictly highest positive score —
earlier entries score strictly less, no entry scores more — and when every
entry scores 0 the reply is the canned fallback (one of the greeting,
gratitude, farewell or generic not-understood responses). -/
theorem c8_best_answer (message : PyStr) (faqs : List Faq)
    (hq : (pyLower (pyStrip message)).isEmpty = false)
    (ha : ∀ f ∈ faqs, f.answer ≠ []) :
    (∃ l₁ f l₂, faqs = l₁ ++ f :: l₂ ∧
        0 < faqScore (pyLower (pyStrip message)) f ∧
        chatbot_ask message faqs = f.answer ∧
        (∀ g ∈ l₁, faqScore (pyLower (pyStrip message)) g
            < faqScore (pyLower (pyStrip message)) f) ∧
        (∀ g ∈ faqs, faqScore (pyLower (pyStrip message)) g
            ≤ faqScore (pyLower (pyStrip message)) f))
    ∨ ((∀ f ∈ faqs, faqScore (pyLower (pyStrip message)) f = 0) ∧
        chatbot_ask message faqs = fallbackReply (pyLower (pyStrip message)) ∧
        (fallbackReply (pyLower (pyStrip message)) = greetingReply ∨
          fallbackReply (pyLower (pyStrip message)) = thanksReply ∨
          fallbackReply (pyLower (pyStrip message)) = byeReply ∨
          fallbackReply (pyLower (pyStrip message)) = notUnderstoodReply)) := by
  have hask : chatbot_ask message faqs
      = chatbotReplyOf (pyLower (pyStrip message)) faqs := by
    rw [chatbot_ask, if_neg (by rw [hq]; exact Bool.false_ne_true)]
  rcases bestScan_spec (pyLower (pyStrip message)) faqs none 0 with
    ⟨heq, hle⟩ | ⟨l₁, f, l₂, heq, hres, hlt, h1, h2⟩
  · refine Or.inr ⟨fun f hf => Nat.le_zero.mp (hle f hf), ?_,
      fallbackReply_cases (pyLower (pyStrip message))⟩
    rw [hask, chatbotReplyOf, heq]
  · refine Or.inl ⟨l₁, f, l₂, heq, hlt, ?_, h1, ?_⟩
    · have hf : f ∈ faqs := by
        rw [heq]
        exact List.mem_append_right l₁ (List.mem_cons_self f l₂)
      have hane : f.answer ≠ [] := ha f hf
      have hcond : (!f.answer.isEmpty
          && decide (0 < faqScore (pyLower (pyStrip message)) f)) = true := by
        rw [Bool.and_eq_true, Bool.not_eq_true']
        refine ⟨?_, decide_eq_true hlt⟩
        rw [← Bool.not_eq_true, List.isEmpty_iff]
        exact hane
      rw [hask, chatbotReplyOf, hres]
      show (if (!f.answer.isEmpty
          && decide (0 < faqScore (pyLower (pyStrip message)) f)) = true then f.answer
        else fallbackReply (pyLower (pyStrip message))) = f.answer
      rw [if_pos hcond]
    · intro g hg
      rw [heq] at hg
      rcases List.mem_append.mp hg with hg | hg
      · exact Nat.le_of_lt (h1 g hg)
      · rcases List.mem_cons.mp hg with hg | hg
        · rw [hg]
        · exact h2 g hg

/-- C8 (witness): with the single seeded drive-schedule FAQ, a matching query
gets that FAQ's answer (score 3 + 2, strictly positive). -/
theorem c8_best_answer_witness :
    (∃ l₁ f l₂,
        [Faq.mk "when is the next placement drive".data "Check the feed.".data
          "drive,next,when".data] = l₁ ++ f :: l₂ ∧
        0 < faqScore (pyLower (pyStrip "When is the NEXT drive".data)) f ∧
        chatbot_ask "When is the NEXT drive".data
          [Faq.mk "when is the next placement drive".data "Check the feed.".data
            "drive,next,when".data] = f.answer ∧
        (∀ g ∈ l₁, faqScore (pyLower (pyStrip "When is the NEXT drive".data)) g
            < faqScore (pyLower (pyStrip "When is the NEXT drive".data)) f) ∧
        (∀ g ∈ [Faq.mk "when is the next placement drive".data "Check the feed.".data
            "drive,next,when".data],
          faqScore (pyLower (pyStrip "When is the NEXT drive".data)) g
            ≤ faqScore (pyLower (pyStrip "When is the NEXT drive".data)) f))
    ∨ ((∀ f ∈ [Faq.mk "when is the next placement drive".data "Check the feed.".data
          "drive,next,when".data],
          faqScore (pyLower (pyStrip "When is the NEXT drive".data)) f = 0) ∧
        chatbot_ask "When is the NEXT drive".data
          [Faq.mk "when is the next placement drive".data "Check the feed.".data
            "drive,next,when".data]
          = fallbackReply (pyLower (pyStrip "When is the NEXT drive".data)) ∧
        (fallbackReply (pyLower (pyStrip "When is the NEXT drive".data)) = greetingReply ∨
          fallbackReply (pyLower (pyStrip "When is the NEXT drive".data)) = thanksReply ∨
          fallbackReply (pyLower (pyStrip "When is the NEXT drive".data)) = byeReply ∨
          fallbackReply (pyLower (pyStrip "When is the NEXT drive".data))
            = notUnderstoodReply)) :=
  c8_best_answer "When is the NEXT drive".data
    [Faq.mk "when is the next placement drive".data "Check the feed.".data
      "drive,next,when".data]
    (by decide) (by decide)

theorem notify_fold_acc (send : String → Bool) :
    ∀ (l : List String) (n : Nat),
      l.foldl (fun sent e => if send e then sent + 1 else sent) n
        = n + (l.filter send).length := by
  intro l
  induction l with
  | nil => intro n; rw [List.foldl_nil, List.filter_nil, List.length_nil, Nat.add_zero]
  | cons e rest ih =>
    intro n
    rw [List.foldl_cons, List.filter_cons]
    by_cases h : send e = true
    · rw [if_pos h, if_pos h, ih, List.length_cons]
      omega
    · rw [if_neg h, if_neg h, ih]

/-- C10: the fan-out attempts every recipient independently — an individual
failure never aborts the remaining sends — and the reported count is exactly
the number of successful sends; concretely, 5 recipients with 2 failing sends
report 3. -/
theorem c10_notification_fanout (recipients : List String) (send : String → Bool) :
    notify_eligible recipients send = (recipients.filter send).length ∧
    notify_eligible ["e1", "e2", "e3", "e4", "e5"]
        (fun e => !(e == "e2" || e == "e4")) = 3 := by
  constructor
  · rw [notify_eligible, notify_fold_acc, Nat.zero_add]
  · decide

end PlacementPro
